import Mathlib

/-!
A shallow embedding of the chess-coaching web application ("academy").

Server side: the Mongo document collections (users, puzzles, assignments,
class schedules) are modelled as lists of records, and each Express route
handler from `registerRoutes` (src/unnamed/part_003) together with the
storage layer (src/unnamed/part_004) becomes a pure transition
`step : Op → DB → Resp × DB`.  The session user of a request is modelled by
the optional user id carried in each operation (passport deserialises the
session id through `storage.getUser`).  Mongo object ids are modelled by a
fresh-id counter `nextId`; `findOneAndUpdate` / `findOneAndDelete` act on the
first matching document, as modelled by `updateFirst` / `List.eraseP`.
Times are integers (minutes), so `addMinutes(t, -10)` is `t - 10`.
The scrypt primitive of node's crypto library is external code, so it is a
parameter `scrypt : String → String → String` (password, salt ↦ hex digest),
and the random salt of `hashPassword` is an explicit argument.
Texts of error messages produced inside third-party validators (zod,
mongoose) are not modelled (`none`); all messages written literally in the
repository's handlers are modelled verbatim.

Client side: the puzzle creator's UCI validation, the student solver's
move check, and the classroom board's broadcast handlers are embedded as
pure functions; the chess.js engine is external code and is a parameter
(`ChessApi`).  JavaScript's `trim` and `split(/\s+/)` are modelled by
executable functions on the character list.
-/

namespace Academy

/-- Update the first element satisfying `p` (Mongo `findOneAndUpdate`). -/
def updateFirst {α : Type} (p : α → Bool) (f : α → α) : List α → List α
  | [] => []
  | x :: xs => if p x then f x :: xs else x :: updateFirst p f xs

/-- User document (`userSchema` in src/server/models/index.ts). -/
structure User where
  id : Nat
  username : String
  password : String
  name : String
  email : Option String
  role : String
  prefProvider : Option String
  prefUrl : Option String
deriving Repr, DecidableEq

/-- One attempt record inside an assignment. -/
structure Attempt where
  moves : List String
  timestamp : Int
deriving Repr, DecidableEq

/-- Assignment document (`assignmentSchema`). -/
structure Assignment where
  id : Nat
  puzzleId : Nat
  studentId : Nat
  completed : Bool
  assignedAt : Int
  attempts : List Attempt
deriving Repr, DecidableEq

/-- Puzzle document (`puzzleSchema`). -/
structure Puzzle where
  id : Nat
  fen : String
  solution : List String
  themes : List String
  createdBy : Nat
  createdAt : Int
deriving Repr, DecidableEq

/-- Class schedule document (`classScheduleSchema`). -/
structure ClassSchedule where
  id : Nat
  title : String
  description : String
  coachId : Nat
  studentIds : List Nat
  startTime : Int
  endTime : Int
  timezone : String
  meetingUrl : String
  meetingProvider : String
  status : String
  actualStartTime : Option Int
  actualEndTime : Option Int
  attendees : List Nat
deriving Repr, DecidableEq

/-- The document store, plus a fresh-object-id counter. -/
structure DB where
  users : List User
  puzzles : List Puzzle
  assignments : List Assignment
  schedules : List ClassSchedule
  nextId : Nat
deriving Repr, DecidableEq

/-- An HTTP response: status code and the literal message of the JSON body,
when the handler writes one. -/
structure Resp where
  status : Nat
  message : Option String
deriving Repr, DecidableEq

/-- Model of `hashPassword` (src/server/auth.ts): hex scrypt digest, a dot, the salt. -/
def hashPasswordM (scrypt : String → String → String) (salt password : String) :
    String :=
  scrypt password salt ++ "." ++ salt

/-- Model of `comparePasswords` (src/server/auth.ts). -/
def comparePasswordsM (scrypt : String → String → String)
    (supplied stored : String) : Bool :=
  match stored.splitOn "." with
  | [hashed, salt] => scrypt supplied salt == hashed
  | _ => false

/-- The deserialised session user (`passport.deserializeUser` calls
`storage.getUser` on the id stored in the session). -/
def lookupUser (s : DB) (sess : Option Nat) : Option User :=
  sess.bind (fun uid => s.users.find? (fun u => u.id == uid))

/-- The `requireCoach` middleware (part_003, lines 204-211). -/
def requireCoach (s : DB) (sess : Option Nat) (k : User → Resp × DB) :
    Resp × DB :=
  match lookupUser s sess with
  | none => (⟨403, some "Coach access required"⟩, s)
  | some u =>
      if u.role = "coach" then k u else (⟨403, some "Coach access required"⟩, s)

/-- The inline `if (!req.user) 401 / if role !== "student" 403` checks used by
the student routes (`sendStatus` sends no JSON message). -/
def requireStudent (s : DB) (sess : Option Nat) (k : User → Resp × DB) :
    Resp × DB :=
  match lookupUser s sess with
  | none => (⟨401, none⟩, s)
  | some u => if u.role = "student" then k u else (⟨403, none⟩, s)

/-- The inline `if (!req.user) 401` check of PUT /api/profile. -/
def requireUser (s : DB) (sess : Option Nat) (k : User → Resp × DB) :
    Resp × DB :=
  match lookupUser s sess with
  | none => (⟨401, none⟩, s)
  | some u => k u

/-- POST /api/students handler body: `createStudentSchema.parse` (username of
at least 3 characters, a name) then `storage.createStudent`, which stores the
scrypt hash of the fixed default password "student123" and role "student"
(src/unnamed/part_004, lines 57-66). -/
def createStudentH (scrypt : String → String → String) (salt username name : String)
    (s : DB) : Resp × DB :=
  if username.length < 3 then (⟨400, none⟩, s)
  else
    let stu : User :=
      { id := s.nextId, username := username
        password := hashPasswordM scrypt salt "student123"
        name := name, email := none, role := "student"
        prefProvider := none, prefUrl := none }
    (⟨201, none⟩, { s with users := s.users ++ [stu], nextId := s.nextId + 1 })

/-- GET /api/students handler body: a read, the store is untouched. -/
def getStudentsH (s : DB) : Resp × DB := (⟨200, none⟩, s)

/-- POST /api/puzzles handler body: `PuzzleModel.create` with
`createdBy: req.user._id`. -/
def createPuzzleH (u : User) (fen : String) (solution themes : List String)
    (now : Int) (s : DB) : Resp × DB :=
  let p : Puzzle :=
    { id := s.nextId, fen := fen, solution := solution, themes := themes
      createdBy := u.id, createdAt := now }
  (⟨201, none⟩, { s with puzzles := s.puzzles ++ [p], nextId := s.nextId + 1 })

/-- POST /api/puzzles/update handler body (part_003, lines 765-788):
400 "Missing required fields" when a request field is absent, otherwise
`findByIdAndUpdate` setting only `solution` and `themes`. -/
def updatePuzzleH (pid : Option Nat) (sol themes : Option (List String))
    (s : DB) : Resp × DB :=
  match pid, sol, themes with
  | some pid, some sol, some themes =>
    match s.puzzles.find? (fun p => p.id == pid) with
    | none => (⟨404, some "Puzzle not found"⟩, s)
    | some _ =>
        let f := fun (p : Puzzle) => { p with solution := sol, themes := themes }
        (⟨200, none⟩,
         { s with puzzles := updateFirst (fun p => p.id == pid) f s.puzzles })
  | _, _, _ => (⟨400, some "Missing required fields"⟩, s)

/-- POST /api/puzzles/delete handler body (part_003, lines 790-809). -/
def deletePuzzleH (pid : Option Nat) (s : DB) : Resp × DB :=
  match pid with
  | none => (⟨400, some "Missing puzzle ID"⟩, s)
  | some pid =>
    match s.puzzles.find? (fun p => p.id == pid) with
    | none => (⟨404, some "Puzzle not found"⟩, s)
    | some _ =>
        (⟨200, some "Puzzle deleted successfully"⟩,
         { s with puzzles := s.puzzles.eraseP (fun p => p.id == pid) })

/-- POST /api/assignments handler body (part_003, lines 294-322). -/
def createAssignmentH (pid sid : Nat) (now : Int) (s : DB) : Resp × DB :=
  match s.puzzles.find? (fun p => p.id == pid),
        s.users.find? (fun u => u.id == sid) with
  | some _, some stu =>
    if stu.role ≠ "student" then (⟨400, some "Can only assign to students"⟩, s)
    else
      let a : Assignment :=
        { id := s.nextId, puzzleId := pid, studentId := sid
          completed := false, assignedAt := now, attempts := [] }
      (⟨201, none⟩,
       { s with assignments := s.assignments ++ [a], nextId := s.nextId + 1 })
  | _, _ => (⟨404, some "Puzzle or student not found"⟩, s)

/-- POST /api/assignments/:assignmentId/complete handler body (part_003,
lines 425-453): `findOneAndUpdate` on id, the requesting student, and
`completed: false`; sets the flag and pushes the attempt. -/
def completeAssignmentH (u : User) (aid : Nat) (moves : List String)
    (now : Int) (s : DB) : Resp × DB :=
  let pred := fun (a : Assignment) =>
    a.id == aid && a.studentId == u.id && a.completed == false
  match s.assignments.find? pred with
  | none => (⟨404, some "Assignment not found or already completed"⟩, s)
  | some _ =>
      let f := fun (a : Assignment) =>
        { a with completed := true, attempts := a.attempts ++ [⟨moves, now⟩] }
      (⟨200, none⟩,
       { s with assignments := updateFirst pred f s.assignments })

/-- POST /api/assignments/:assignmentId/attempt handler body (part_003,
lines 456-482): pushes the attempt, the `completed` flag is not written. -/
def attemptAssignmentH (u : User) (aid : Nat) (moves : List String)
    (now : Int) (s : DB) : Resp × DB :=
  let pred := fun (a : Assignment) => a.id == aid && a.studentId == u.id
  match s.assignments.find? pred with
  | none => (⟨404, some "Assignment not found"⟩, s)
  | some _ =>
      let f := fun (a : Assignment) =>
        { a with attempts := a.attempts ++ [⟨moves, now⟩] }
      (⟨200, none⟩,
       { s with assignments := updateFirst pred f s.assignments })

/-- DELETE /api/students/:studentId/puzzles/:puzzleId handler body (part_003,
lines 485-504): `findOneAndDelete` on the assignment id (the `:puzzleId`
parameter), the student, and `completed: false`. -/
def deleteAssignmentH (sid aid : Nat) (s : DB) : Resp × DB :=
  let pred := fun (a : Assignment) =>
    a.id == aid && a.studentId == sid && a.completed == false
  match s.assignments.find? pred with
  | none => (⟨404, some "Assignment not found or already completed"⟩, s)
  | some _ =>
      (⟨200, some "Assignment deleted successfully"⟩,
       { s with assignments := s.assignments.eraseP pred })

/-- POST /api/class-schedules handler body (part_003, lines 508-549):
timezone defaults to "UTC", meeting settings default to the coach's stored
preferences, `insertClassScheduleSchema.parse` requires a nonempty title and
a meeting url/provider (provider from the zoom/google_meet enum), the created
schedule starts with mongoose defaults `status: "not_started"`, no actual
times, no attendees. -/
def createScheduleH (u : User) (title description : String)
    (studentIds : List Nat) (startTime endTime : Int)
    (timezone meetingProvider meetingUrl : Option String) (s : DB) :
    Resp × DB :=
  let tz := timezone.getD "UTC"
  let prov : Option String :=
    match meetingProvider with
    | some p => some p
    | none => u.prefProvider
  let url : Option String :=
    match meetingUrl with
    | some x => some x
    | none => u.prefUrl
  if title = "" then (⟨400, none⟩, s)
  else
    match prov, url with
    | some prov, some url =>
      if prov ≠ "zoom" ∧ prov ≠ "google_meet" then (⟨400, none⟩, s)
      else
        let sch : ClassSchedule :=
          { id := s.nextId, title := title, description := description
            coachId := u.id, studentIds := studentIds
            startTime := startTime, endTime := endTime, timezone := tz
            meetingUrl := url, meetingProvider := prov
            status := "not_started", actualStartTime := none
            actualEndTime := none, attendees := [] }
        (⟨201, none⟩,
         { s with schedules := s.schedules ++ [sch], nextId := s.nextId + 1 })
    | _, _ => (⟨400, none⟩, s)

/-- POST /api/class-schedules/:scheduleId/start handler body (part_003,
lines 585-627): look up by id and owning coach, reject "Too early to start
class" before the ten-minute early-access window, then reject "Class is
already completed", otherwise set `in_progress` and the actual start time. -/
def startScheduleH (u : User) (sid : Nat) (now : Int) (s : DB) : Resp × DB :=
  let pred := fun (c : ClassSchedule) => c.id == sid && c.coachId == u.id
  match s.schedules.find? pred with
  | none => (⟨404, some "Schedule not found"⟩, s)
  | some sch =>
    if now < sch.startTime - 10 then
      (⟨400, some "Too early to start class"⟩, s)
    else if sch.status = "completed" then
      (⟨400, some "Class is already completed"⟩, s)
    else
      let f := fun (c : ClassSchedule) =>
        { c with status := "in_progress", actualStartTime := some now }
      (⟨200, none⟩, { s with schedules := updateFirst pred f s.schedules })

/-- POST /api/class-schedules/:scheduleId/end handler body (part_003,
lines 629-655): `findOneAndUpdate` matching only `status: "in_progress"`. -/
def endScheduleH (u : User) (sid : Nat) (now : Int) (s : DB) : Resp × DB :=
  let pred := fun (c : ClassSchedule) =>
    c.id == sid && c.coachId == u.id && c.status == "in_progress"
  match s.schedules.find? pred with
  | none => (⟨404, some "Schedule not found or cannot be ended"⟩, s)
  | some _ =>
      let f := fun (c : ClassSchedule) =>
        { c with status := "completed", actualEndTime := some now }
      (⟨200, none⟩, { s with schedules := updateFirst pred f s.schedules })

/-- POST /api/class-schedules/:scheduleId/attend handler body (part_003,
lines 657-684): `findOneAndUpdate` matching only `status: "in_progress"`,
the requesting student among `studentIds` and not yet among `attendees`. -/
def attendScheduleH (u : User) (sid : Nat) (s : DB) : Resp × DB :=
  let pred := fun (c : ClassSchedule) =>
    c.id == sid && c.status == "in_progress" &&
    c.studentIds.contains u.id && !(c.attendees.contains u.id)
  match s.schedules.find? pred with
  | none => (⟨404, some "Schedule not found or attendance already marked"⟩, s)
  | some _ =>
      let f := fun (c : ClassSchedule) =>
        { c with attendees := c.attendees ++ [u.id] }
      (⟨200, none⟩, { s with schedules := updateFirst pred f s.schedules })

/-- PUT /api/profile handler body (part_003, lines 688-725):
`updateProfileSchema.parse` (optional passwords of at least 6 characters);
with both passwords present, verify the current one and update name, email
and password, otherwise update name and email only. -/
def updateProfileH (scrypt : String → String → String) (u : User)
    (name : String) (email : Option String)
    (currentPassword newPassword : Option String) (salt : String) (s : DB) :
    Resp × DB :=
  let badLen := fun (o : Option String) =>
    match o with
    | some p => p.length < 6
    | none => false
  if badLen currentPassword || badLen newPassword then (⟨400, none⟩, s)
  else
    match currentPassword, newPassword with
    | some cur, some npw =>
      match s.users.find? (fun x => x.id == u.id) with
      | none => (⟨404, some "User not found"⟩, s)
      | some stored =>
        if comparePasswordsM scrypt cur stored.password then
          let f := fun (x : User) =>
            { x with name := name, email := email
                     password := hashPasswordM scrypt salt npw }
          (⟨200, none⟩,
           { s with users := updateFirst (fun x => x.id == u.id) f s.users })
        else (⟨400, some "Current password is incorrect"⟩, s)
    | _, _ =>
        let f := fun (x : User) => { x with name := name, email := email }
        (⟨200, none⟩,
         { s with users := updateFirst (fun x => x.id == u.id) f s.users })

/-- PUT /api/preferences handler body (part_003, lines 727-750):
`updatePreferencesSchema.parse` (zoom/google_meet enum) then
`findByIdAndUpdate` of the preferences object. -/
def updatePreferencesH (u : User) (provider url : String) (s : DB) :
    Resp × DB :=
  if provider ≠ "zoom" ∧ provider ≠ "google_meet" then (⟨400, none⟩, s)
  else
    let f := fun (x : User) =>
      { x with prefProvider := some provider, prefUrl := some url }
    (⟨200, none⟩,
     { s with users := updateFirst (fun x => x.id == u.id) f s.users })

/-- The API operations: every route of `registerRoutes` that can write to the
store, plus the coach-only student listing.  Each carries the session user id
and, where the handler reads the wall clock or draws a random salt, that
environment input. -/
inductive Op where
  | createStudent (sess : Option Nat) (salt username name : String)
  | getStudents (sess : Option Nat)
  | createPuzzle (sess : Option Nat) (fen : String)
      (solution themes : List String) (now : Int)
  | updatePuzzle (sess : Option Nat) (puzzleId : Option Nat)
      (solution themes : Option (List String))
  | deletePuzzle (sess : Option Nat) (puzzleId : Option Nat)
  | createAssignment (sess : Option Nat) (puzzleId studentId : Nat) (now : Int)
  | completeAssignment (sess : Option Nat) (assignmentId : Nat)
      (moves : List String) (now : Int)
  | attemptAssignment (sess : Option Nat) (assignmentId : Nat)
      (moves : List String) (now : Int)
  | deleteAssignment (sess : Option Nat) (studentId assignmentId : Nat)
  | createSchedule (sess : Option Nat) (title description : String)
      (studentIds : List Nat) (startTime endTime : Int)
      (timezone meetingProvider meetingUrl : Option String)
  | startSchedule (sess : Option Nat) (scheduleId : Nat) (now : Int)
  | endSchedule (sess : Option Nat) (scheduleId : Nat) (now : Int)
  | attendSchedule (sess : Option Nat) (scheduleId : Nat)
  | updateProfile (sess : Option Nat) (salt name : String)
      (email : Option String) (currentPassword newPassword : Option String)
  | updatePreferences (sess : Option Nat) (provider url : String)
deriving Repr, DecidableEq

/-- The session user id an operation's request carries. -/
def Op.sess : Op → Option Nat
  | .createStudent sess .. => sess
  | .getStudents sess .. => sess
  | .createPuzzle sess .. => sess
  | .updatePuzzle sess .. => sess
  | .deletePuzzle sess .. => sess
  | .createAssignment sess .. => sess
  | .completeAssignment sess .. => sess
  | .attemptAssignment sess .. => sess
  | .deleteAssignment sess .. => sess
  | .createSchedule sess .. => sess
  | .startSchedule sess .. => sess
  | .endSchedule sess .. => sess
  | .attendSchedule sess .. => sess
  | .updateProfile sess .. => sess
  | .updatePreferences sess .. => sess

/-- One request against the API: middleware gate, then handler, exactly as
each route is registered in part_003. -/
def step (scrypt : String → String → String) (op : Op) (s : DB) : Resp × DB :=
  match op with
  | .createStudent sess salt username name =>
      requireCoach s sess (fun _ => createStudentH scrypt salt username name s)
  | .getStudents sess => requireCoach s sess (fun _ => getStudentsH s)
  | .createPuzzle sess fen solution themes now =>
      requireCoach s sess (fun u => createPuzzleH u fen solution themes now s)
  | .updatePuzzle sess pid sol themes =>
      requireCoach s sess (fun _ => updatePuzzleH pid sol themes s)
  | .deletePuzzle sess pid => requireCoach s sess (fun _ => deletePuzzleH pid s)
  | .createAssignment sess pid sid now =>
      requireCoach s sess (fun _ => createAssignmentH pid sid now s)
  | .completeAssignment sess aid moves now =>
      requireStudent s sess (fun u => completeAssignmentH u aid moves now s)
  | .attemptAssignment sess aid moves now =>
      requireStudent s sess (fun u => attemptAssignmentH u aid moves now s)
  | .deleteAssignment sess sid aid =>
      requireCoach s sess (fun _ => deleteAssignmentH sid aid s)
  | .createSchedule sess title description studentIds st et tz prov url =>
      requireCoach s sess
        (fun u => createScheduleH u title description studentIds st et tz prov url s)
  | .startSchedule sess sid now =>
      requireCoach s sess (fun u => startScheduleH u sid now s)
  | .endSchedule sess sid now =>
      requireCoach s sess (fun u => endScheduleH u sid now s)
  | .attendSchedule sess sid =>
      requireStudent s sess (fun u => attendScheduleH u sid s)
  | .updateProfile sess salt name email cur npw =>
      requireUser s sess
        (fun u => updateProfileH scrypt u name email cur npw salt s)
  | .updatePreferences sess prov url =>
      match lookupUser s sess with
      | none => (⟨401, none⟩, s)
      | some u =>
          if u.role ≠ "coach" then (⟨403, none⟩, s)
          else updatePreferencesH u prov url s

/-! ### Client-side embeddings -/

/-- JavaScript `String.prototype.trim`: strip whitespace at both ends. -/
def jsTrim (s : String) : String :=
  String.mk
    (((s.toList.dropWhile Char.isWhitespace).reverse.dropWhile
        Char.isWhitespace).reverse)

/-- Splitter for `split(/\s+/)` on a character list: the maximal runs of
non-whitespace characters, accumulating the current (reversed) token. -/
def wsSplit : List Char → List Char → List (List Char)
  | [], cur => if cur.isEmpty then [] else [cur.reverse]
  | c :: cs, cur =>
    if c.isWhitespace then
      if cur.isEmpty then wsSplit cs [] else cur.reverse :: wsSplit cs []
    else wsSplit cs (c :: cur)

/-- JavaScript `s.split(/\s+/)` for a trimmed string `s`: the whitespace
separated tokens, except that the empty string splits to `[""]`. -/
def jsSplitWs (s : String) : List String :=
  if s = "" then [""] else (wsSplit s.toList []).map String.mk

/-- The `[a-h]` character class. -/
def isFileChar (c : Char) : Bool := 'a' ≤ c && c ≤ 'h'

/-- The `[1-8]` character class. -/
def isRankChar (c : Char) : Bool := '1' ≤ c && c ≤ '8'

/-- The `[qrbnk]` character class. -/
def isPromoChar (c : Char) : Bool :=
  c = 'q' || c = 'r' || c = 'b' || c = 'n' || c = 'k'

/-- The anchored regex of the puzzle creator,
`^[a-h][1-8][a-h][1-8][qrbnk]?$`. -/
def uciRegexTest (m : String) : Bool :=
  match m.toList with
  | [a, b, c, d] => isFileChar a && isRankChar b && isFileChar c && isRankChar d
  | [a, b, c, d, e] =>
      isFileChar a && isRankChar b && isFileChar c && isRankChar d &&
      isPromoChar e
  | _ => false

/-- The per-token check of `handleSolutionSubmit`
(StudentPuzzleSolver.tsx, second component, lines 450-453):
`(move.length === 4 || move.length === 5) && regex.test(move)`. -/
def isValidUciMove (m : String) : Bool :=
  (m.length == 4 || m.length == 5) && uciRegexTest m

/-- The claim's criterion for an accepted token, stated from the spec's
words: a four- or five-character string whose first four characters match
`[a-h][1-8][a-h][1-8]` and whose optional fifth character is one of
q, r, b, n, k. -/
def claimUciToken (m : String) : Bool :=
  match m.toList with
  | [a, b, c, d] => isFileChar a && isRankChar b && isFileChar c && isRankChar d
  | [a, b, c, d, e] =>
      isFileChar a && isRankChar b && isFileChar c && isRankChar d &&
      isPromoChar e
  | _ => false

/-- The state of the `PuzzleCreator` component that `handleSolutionSubmit`
reads and writes. -/
structure CreatorState where
  solution : List String
  solutionInput : String
  currentMoveIndex : Int
  isPlaying : Bool
deriving Repr, DecidableEq

/-- Model of `handleSolutionSubmit` (StudentPuzzleSolver.tsx, second component,
lines 446-464): trim and split the entered string, validate every token,
and on success store the tokens as the solution and reset the input, the
move index and autoplay; on failure alert and leave the state unchanged. -/
def handleSolutionSubmit (st : CreatorState) : CreatorState :=
  let moves := jsSplitWs (jsTrim st.solutionInput)
  let isValidUCI := moves.all isValidUciMove
  if !isValidUCI then st
  else
    { st with solution := moves, solutionInput := ""
              currentMoveIndex := -1, isPlaying := false }

/-- JavaScript indexing `l[i]` for a possibly negative index. -/
def jsIndex (l : List String) (i : Int) : Option String :=
  if i < 0 then none else l.get? i.toNat

/-- Model of `isCorrectMove` of the student puzzle solver
(StudentPuzzleSolver.tsx, lines 99-117): the played UCI string matches the
expected solution move, or the two agree on their first four characters
(`substring(0, 4)`) and at least one of them has length five. -/
def isCorrectMove (solution : List String) (currentMoveIndex : Int)
    (moveStr : String) : Bool :=
  match jsIndex solution (currentMoveIndex + 1) with
  | none => false
  | some expectedMove =>
    if moveStr = expectedMove then true
    else
      let baseMove := moveStr.take 4
      let expectedBaseMove := expectedMove.take 4
      if baseMove = expectedBaseMove then
        moveStr.length == 5 || expectedMove.length == 5
      else false

/-- The operations of the chess.js engine that `ClassroomBoard` uses.  The
engine is an external library, so it is kept abstract: `move` returns the
game after a successful move (chess.js mutates in place and returns null on
an illegal move), `fen` reads the current FEN, `loadFresh` builds a fresh
game from a FEN (`new Chess(); load(fen)`), `history` lists the moves. -/
structure ChessApi (G : Type) where
  move : G → String → String → String → Option G
  fen : G → String
  loadFresh : String → G
  history : G → List String

/-- The `ClassroomBoard` component state that the handlers touch. -/
structure BoardState (G : Type) where
  game : G
  moveHistory : List String
  currentMoveIndex : Int
  isConnected : Bool

/-- Model of `handleMove` (ClassroomBoard.tsx, lines 88-121): refuse when not
connected; try the move with promotion "q"; on success replace the game by a
fresh game from the resulting FEN, refresh the history, and emit one
`board_update` message holding exactly the new game's FEN.  Returns the
handler's boolean result, the new component state, and the emitted
messages (the FEN payloads). -/
def handleMove {G : Type} (api : ChessApi G) (st : BoardState G)
    (src tgt : String) : Bool × BoardState G × List String :=
  if !st.isConnected then (false, st, [])
  else
    match api.move st.game src tgt "q" with
    | none => (false, st, [])
    | some moved =>
      let newGame := api.loadFresh (api.fen moved)
      let hist := api.history newGame
      (true,
       { st with game := newGame, moveHistory := hist
                 currentMoveIndex := (hist.length : Int) - 1 },
       [api.fen newGame])

/-- The `board_update` socket handler (ClassroomBoard.tsx, lines 51-55):
`new Chess(); load(data.fen); setGame(...)` - the local game is replaced
wholesale by a fresh game from the received FEN. -/
def onBoardUpdate {G : Type} (api : ChessApi G) (st : BoardState G)
    (fenStr : String) : BoardState G :=
  { st with game := api.loadFresh fenStr }

/-! ### Helper lemmas -/

theorem mem_updateFirst {α : Type} {p : α → Bool} {f : α → α} {l : List α}
    {y : α} (hy : y ∈ updateFirst p f l) :
    y ∈ l ∨ ∃ x, x ∈ l ∧ p x = true ∧ y = f x := by
  induction l with
  | nil => simp [updateFirst] at hy
  | cons x xs ih =>
    by_cases hx : p x = true
    · rw [show updateFirst p f (x :: xs) = f x :: xs from by
        simp [updateFirst, hx]] at hy
      rcases List.mem_cons.mp hy with hy | hy
      · exact Or.inr ⟨x, List.mem_cons_self x xs, hx, hy⟩
      · exact Or.inl (List.mem_cons_of_mem x hy)
    · rw [show updateFirst p f (x :: xs) = x :: updateFirst p f xs from by
        simp [updateFirst, hx]] at hy
      rcases List.mem_cons.mp hy with hy | hy
      · exact Or.inl (hy ▸ List.mem_cons_self x xs)
      · rcases ih hy with h | ⟨z, hz, hpz, hyz⟩
        · exact Or.inl (List.mem_cons_of_mem x h)
        · exact Or.inr ⟨z, List.mem_cons_of_mem x hz, hpz, hyz⟩

theorem map_updateFirst {α β : Type} (key : α → β) {p : α → Bool} {f : α → α}
    (hf : ∀ x, key (f x) = key x) (l : List α) :
    (updateFirst p f l).map key = l.map key := by
  induction l with
  | nil => rfl
  | cons x xs ih =>
    by_cases hx : p x = true
    · simp [updateFirst, hx, hf]
    · simp [updateFirst, hx, ih]

theorem updateFirst_eq_map {α : Type} (key : α → Nat) (k : Nat) (f : α → α)
    (l : List α) (hnd : (l.map key).Nodup) :
    updateFirst (fun x => key x == k) f l =
      l.map (fun x => if key x == k then f x else x) := by
  induction l with
  | nil => rfl
  | cons x xs ih =>
    simp only [List.map_cons, List.nodup_cons] at hnd
    by_cases hx : (key x == k) = true
    · rw [show updateFirst (fun x => key x == k) f (x :: xs) = f x :: xs from by
        simp [updateFirst, hx]]
      rw [List.map_cons, if_pos hx]
      have hxs : ∀ y ∈ xs, (if key y == k then f y else y) = y := by
        intro y hy
        have hk : ¬ (key y == k) = true := by
          intro hk
          apply hnd.1
          have h1 : key y = k := by simpa using hk
          have h2 : key x = k := by simpa using hx
          have : key y = key x := h1.trans h2.symm
          exact this ▸ List.mem_map_of_mem key hy
        simp [hk]
      rw [List.map_congr_left hxs]
      simp
    · rw [show updateFirst (fun x => key x == k) f (x :: xs)
            = x :: updateFirst (fun x => key x == k) f xs from by
        simp [updateFirst, hx]]
      rw [List.map_cons, if_neg hx, ih hnd.2]

theorem find?_eq_of_key {α : Type} (key : α → Nat) {l : List α}
    (hnd : (l.map key).Nodup) {a : α} (ha : a ∈ l) (p : α → Bool)
    (hkey : ∀ x, p x = true → key x = key a) :
    l.find? p = if p a then some a else none := by
  induction l with
  | nil => simp at ha
  | cons x xs ih =>
    simp only [List.map_cons, List.nodup_cons] at hnd
    rcases List.mem_cons.mp ha with rfl | ha'
    · by_cases hx : p a = true
      · rw [List.find?_cons_of_pos xs hx, if_pos hx]
      · rw [List.find?_cons_of_neg xs hx, if_neg hx]
        rw [List.find?_eq_none]
        intro y hy hpy
        exact hnd.1 ((hkey y hpy) ▸ List.mem_map_of_mem key hy)
    · have hx : ¬ p x = true := by
        intro hpx
        exact hnd.1 ((hkey x hpx) ▸ List.mem_map_of_mem key ha')
      rw [List.find?_cons_of_neg xs hx]
      exact ih hnd.2 ha'

theorem not_mem_eraseP_self {α : Type} {p : α → Bool} {l : List α} {a : α}
    (hnd : l.Nodup) (h : l.find? p = some a) : a ∉ l.eraseP p := by
  induction l with
  | nil => simp at h
  | cons x xs ih =>
    rw [List.nodup_cons] at hnd
    by_cases hx : p x = true
    · rw [List.find?_cons_of_pos xs hx] at h
      rw [List.eraseP_cons_of_pos hx]
      cases h
      exact hnd.1
    · rw [List.find?_cons_of_neg xs hx] at h
      rw [List.eraseP_cons_of_neg hx]
      intro hmem
      rcases List.mem_cons.mp hmem with rfl | hmem'
      · exact hnd.1 (List.mem_of_find?_eq_some h)
      · exact ih hnd.2 h hmem'

theorem mem_eraseP_of_ne {α : Type} {p : α → Bool} {l : List α} {a b : α}
    (hfind : l.find? p = some a) (hb : b ∈ l) (hne : b ≠ a) :
    b ∈ l.eraseP p := by
  induction l with
  | nil => simp at hb
  | cons x xs ih =>
    by_cases hx : p x = true
    · rw [List.find?_cons_of_pos xs hx] at hfind
      cases hfind
      rw [List.eraseP_cons_of_pos hx]
      rcases List.mem_cons.mp hb with rfl | hb'
      · exact absurd rfl hne
      · exact hb'
    · rw [List.find?_cons_of_neg xs hx] at hfind
      rw [List.eraseP_cons_of_neg hx]
      rcases List.mem_cons.mp hb with rfl | hb'
      · exact List.mem_cons_self b _
      · exact List.mem_cons_of_mem x (ih hfind hb')

theorem requireCoach_cases (s : DB) (sess : Option Nat) (k : User → Resp × DB) :
    requireCoach s sess k = (⟨403, some "Coach access required"⟩, s) ∨
    ∃ u, lookupUser s sess = some u ∧ u.role = "coach" ∧
      requireCoach s sess k = k u := by
  by_cases h : ∃ u, lookupUser s sess = some u
  · rcases h with ⟨u, h⟩
    by_cases hr : u.role = "coach"
    · exact Or.inr ⟨u, h, hr, by simp [requireCoach, h, hr]⟩
    · exact Or.inl (by simp [requireCoach, h, hr])
  · have h0 : lookupUser s sess = none := by
      rcases hl : lookupUser s sess with _ | u
      · rfl
      · exact absurd ⟨u, hl⟩ h
    exact Or.inl (by simp [requireCoach, h0])

theorem requireStudent_cases (s : DB) (sess : Option Nat)
    (k : User → Resp × DB) :
    (∃ r, requireStudent s sess k = (r, s)) ∨
    ∃ u, lookupUser s sess = some u ∧ u.role = "student" ∧
      requireStudent s sess k = k u := by
  by_cases h : ∃ u, lookupUser s sess = some u
  · rcases h with ⟨u, h⟩
    by_cases hr : u.role = "student"
    · exact Or.inr ⟨u, h, hr, by simp [requireStudent, h, hr]⟩
    · exact Or.inl ⟨⟨403, none⟩, by simp [requireStudent, h, hr]⟩
  · have h0 : lookupUser s sess = none := by
      rcases hl : lookupUser s sess with _ | u
      · rfl
      · exact absurd ⟨u, hl⟩ h
    exact Or.inl ⟨⟨401, none⟩, by simp [requireStudent, h0]⟩

theorem requireUser_cases (s : DB) (sess : Option Nat) (k : User → Resp × DB) :
    requireUser s sess k = (⟨401, none⟩, s) ∨
    ∃ u, lookupUser s sess = some u ∧ requireUser s sess k = k u := by
  by_cases h : ∃ u, lookupUser s sess = some u
  · rcases h with ⟨u, h⟩
    exact Or.inr ⟨u, h, by simp [requireUser, h]⟩
  · have h0 : lookupUser s sess = none := by
      rcases hl : lookupUser s sess with _ | u
      · rfl
      · exact absurd ⟨u, hl⟩ h
    exact Or.inl (by simp [requireUser, h0])

theorem createStudentH_frame (scrypt : String → String → String)
    (salt un nm : String) (s : DB) :
    (createStudentH scrypt salt un nm s).2.puzzles = s.puzzles ∧
    (createStudentH scrypt salt un nm s).2.assignments = s.assignments ∧
    (createStudentH scrypt salt un nm s).2.schedules = s.schedules := by
  unfold createStudentH
  dsimp only
  split <;> exact ⟨rfl, rfl, rfl⟩

theorem createPuzzleH_frame (u : User) (fen : String) (sol th : List String)
    (now : Int) (s : DB) :
    (createPuzzleH u fen sol th now s).2.users = s.users ∧
    (createPuzzleH u fen sol th now s).2.assignments = s.assignments ∧
    (createPuzzleH u fen sol th now s).2.schedules = s.schedules :=
  ⟨rfl, rfl, rfl⟩

theorem updatePuzzleH_frame (pid : Option Nat) (sol th : Option (List String))
    (s : DB) :
    (updatePuzzleH pid sol th s).2.users = s.users ∧
    (updatePuzzleH pid sol th s).2.assignments = s.assignments ∧
    (updatePuzzleH pid sol th s).2.schedules = s.schedules ∧
    (updatePuzzleH pid sol th s).2.nextId = s.nextId := by
  unfold updatePuzzleH
  try dsimp only
  repeat' split
  all_goals exact ⟨rfl, rfl, rfl, rfl⟩

theorem deletePuzzleH_frame (pid : Option Nat) (s : DB) :
    (deletePuzzleH pid s).2.users = s.users ∧
    (deletePuzzleH pid s).2.assignments = s.assignments ∧
    (deletePuzzleH pid s).2.schedules = s.schedules := by
  unfold deletePuzzleH
  try dsimp only
  repeat' split
  all_goals exact ⟨rfl, rfl, rfl⟩

theorem createAssignmentH_frame (pid sid : Nat) (now : Int) (s : DB) :
    (createAssignmentH pid sid now s).2.users = s.users ∧
    (createAssignmentH pid sid now s).2.puzzles = s.puzzles ∧
    (createAssignmentH pid sid now s).2.schedules = s.schedules := by
  unfold createAssignmentH
  try dsimp only
  repeat' split
  all_goals exact ⟨rfl, rfl, rfl⟩

theorem completeAssignmentH_frame (u : User) (aid : Nat) (mv : List String)
    (now : Int) (s : DB) :
    (completeAssignmentH u aid mv now s).2.users = s.users ∧
    (completeAssignmentH u aid mv now s).2.puzzles = s.puzzles ∧
    (completeAssignmentH u aid mv now s).2.schedules = s.schedules ∧
    (completeAssignmentH u aid mv now s).2.nextId = s.nextId := by
  unfold completeAssignmentH
  try dsimp only
  repeat' split
  all_goals exact ⟨rfl, rfl, rfl, rfl⟩

theorem attemptAssignmentH_frame (u : User) (aid : Nat) (mv : List String)
    (now : Int) (s : DB) :
    (attemptAssignmentH u aid mv now s).2.users = s.users ∧
    (attemptAssignmentH u aid mv now s).2.puzzles = s.puzzles ∧
    (attemptAssignmentH u aid mv now s).2.schedules = s.schedules ∧
    (attemptAssignmentH u aid mv now s).2.nextId = s.nextId := by
  unfold attemptAssignmentH
  try dsimp only
  repeat' split
  all_goals exact ⟨rfl, rfl, rfl, rfl⟩

theorem deleteAssignmentH_frame (sid aid : Nat) (s : DB) :
    (deleteAssignmentH sid aid s).2.users = s.users ∧
    (deleteAssignmentH sid aid s).2.puzzles = s.puzzles ∧
    (deleteAssignmentH sid aid s).2.schedules = s.schedules ∧
    (deleteAssignmentH sid aid s).2.nextId = s.nextId := by
  unfold deleteAssignmentH
  try dsimp only
  repeat' split
  all_goals exact ⟨rfl, rfl, rfl, rfl⟩

theorem createScheduleH_frame (u : User) (ti de : String) (sids : List Nat)
    (st et : Int) (tz prov url : Option String) (s : DB) :
    (createScheduleH u ti de sids st et tz prov url s).2.users = s.users ∧
    (createScheduleH u ti de sids st et tz prov url s).2.puzzles = s.puzzles ∧
    (createScheduleH u ti de sids st et tz prov url s).2.assignments =
      s.assignments := by
  unfold createScheduleH
  try dsimp only
  repeat' split
  all_goals exact ⟨rfl, rfl, rfl⟩

theorem startScheduleH_frame (u : User) (sid : Nat) (now : Int) (s : DB) :
    (startScheduleH u sid now s).2.users = s.users ∧
    (startScheduleH u sid now s).2.puzzles = s.puzzles ∧
    (startScheduleH u sid now s).2.assignments = s.assignments ∧
    (startScheduleH u sid now s).2.nextId = s.nextId := by
  unfold startScheduleH
  try dsimp only
  repeat' split
  all_goals exact ⟨rfl, rfl, rfl, rfl⟩

theorem endScheduleH_frame (u : User) (sid : Nat) (now : Int) (s : DB) :
    (endScheduleH u sid now s).2.users = s.users ∧
    (endScheduleH u sid now s).2.puzzles = s.puzzles ∧
    (endScheduleH u sid now s).2.assignments = s.assignments ∧
    (endScheduleH u sid now s).2.nextId = s.nextId := by
  unfold endScheduleH
  try dsimp only
  repeat' split
  all_goals exact ⟨rfl, rfl, rfl, rfl⟩

theorem attendScheduleH_frame (u : User) (sid : Nat) (s : DB) :
    (attendScheduleH u sid s).2.users = s.users ∧
    (attendScheduleH u sid s).2.puzzles = s.puzzles ∧
    (attendScheduleH u sid s).2.assignments = s.assignments ∧
    (attendScheduleH u sid s).2.nextId = s.nextId := by
  unfold attendScheduleH
  try dsimp only
  repeat' split
  all_goals exact ⟨rfl, rfl, rfl, rfl⟩

theorem updateProfileH_frame (scrypt : String → String → String) (u : User)
    (nm : String) (em : Option String) (cur npw : Option String)
    (salt : String) (s : DB) :
    (updateProfileH scrypt u nm em cur npw salt s).2.puzzles = s.puzzles ∧
    (updateProfileH scrypt u nm em cur npw salt s).2.assignments =
      s.assignments ∧
    (updateProfileH scrypt u nm em cur npw salt s).2.schedules = s.schedules ∧
    (updateProfileH scrypt u nm em cur npw salt s).2.nextId = s.nextId := by
  unfold updateProfileH
  try dsimp only
  repeat' split
  all_goals exact ⟨rfl, rfl, rfl, rfl⟩

theorem updateProfileH_users_ids (scrypt : String → String → String) (u : User)
    (nm : String) (em : Option String) (cur npw : Option String)
    (salt : String) (s : DB) :
    ((updateProfileH scrypt u nm em cur npw salt s).2.users).map User.id =
      s.users.map User.id := by
  unfold updateProfileH
  try dsimp only
  repeat' split
  all_goals try rfl
  all_goals dsimp only
  all_goals refine map_updateFirst User.id ?_ s.users
  all_goals intro x
  all_goals rfl

theorem updatePreferencesH_frame (u : User) (prov url : String) (s : DB) :
    (updatePreferencesH u prov url s).2.puzzles = s.puzzles ∧
    (updatePreferencesH u prov url s).2.assignments = s.assignments ∧
    (updatePreferencesH u prov url s).2.schedules = s.schedules ∧
    (updatePreferencesH u prov url s).2.nextId = s.nextId := by
  unfold updatePreferencesH
  try dsimp only
  repeat' split
  all_goals exact ⟨rfl, rfl, rfl, rfl⟩

theorem updatePreferencesH_users_ids (u : User) (prov url : String) (s : DB) :
    ((updatePreferencesH u prov url s).2.users).map User.id =
      s.users.map User.id := by
  unfold updatePreferencesH
  try dsimp only
  repeat' split
  all_goals try rfl
  all_goals dsimp only
  all_goals refine map_updateFirst User.id ?_ s.users
  all_goals intro x
  all_goals rfl

/-- How one API operation can change the assignments collection: unchanged,
a fresh incomplete assignment appended, the complete update, the attempt
update, or the delete of the first match. -/
theorem step_assignments (scrypt : String → String → String) (op : Op)
    (s : DB) :
    (step scrypt op s).2.assignments = s.assignments
    ∨ (∃ sess pid sid now, op = Op.createAssignment sess pid sid now ∧
        (step scrypt op s).2.assignments =
          s.assignments ++ [⟨s.nextId, pid, sid, false, now, []⟩])
    ∨ (∃ sess aid mv now u, op = Op.completeAssignment sess aid mv now ∧
        lookupUser s sess = some u ∧ u.role = "student" ∧
        (step scrypt op s).2.assignments =
          updateFirst
            (fun a => a.id == aid && a.studentId == u.id && a.completed == false)
            (fun a => { a with completed := true
                               attempts := a.attempts ++ [⟨mv, now⟩] })
            s.assignments)
    ∨ (∃ sess aid mv now u, op = Op.attemptAssignment sess aid mv now ∧
        lookupUser s sess = some u ∧ u.role = "student" ∧
        (step scrypt op s).2.assignments =
          updateFirst (fun a => a.id == aid && a.studentId == u.id)
            (fun a => { a with attempts := a.attempts ++ [⟨mv, now⟩] })
            s.assignments)
    ∨ (∃ sess sid aid, op = Op.deleteAssignment sess sid aid ∧
        (step scrypt op s).2.assignments =
          s.assignments.eraseP
            (fun a => a.id == aid && a.studentId == sid &&
                      a.completed == false)) := by
  cases op with
  | createStudent sess salt un nm =>
    left
    simp only [step]
    rcases requireCoach_cases s sess
        (fun _ => createStudentH scrypt salt un nm s) with h | ⟨u, hu, hr, h⟩
    · rw [h]
    · rw [h]; exact (createStudentH_frame scrypt salt un nm s).2.1
  | getStudents sess =>
    left
    simp only [step]
    rcases requireCoach_cases s sess (fun _ => getStudentsH s) with
      h | ⟨u, hu, hr, h⟩
    · rw [h]
    · rw [h]; rfl
  | createPuzzle sess fen sol th now =>
    left
    simp only [step]
    rcases requireCoach_cases s sess
        (fun u => createPuzzleH u fen sol th now s) with h | ⟨u, hu, hr, h⟩
    · rw [h]
    · rw [h]; exact (createPuzzleH_frame u fen sol th now s).2.1
  | updatePuzzle sess pid sol th =>
    left
    simp only [step]
    rcases requireCoach_cases s sess (fun _ => updatePuzzleH pid sol th s) with
      h | ⟨u, hu, hr, h⟩
    · rw [h]
    · rw [h]; exact (updatePuzzleH_frame pid sol th s).2.1
  | deletePuzzle sess pid =>
    left
    simp only [step]
    rcases requireCoach_cases s sess (fun _ => deletePuzzleH pid s) with
      h | ⟨u, hu, hr, h⟩
    · rw [h]
    · rw [h]; exact (deletePuzzleH_frame pid s).2.1
  | createAssignment sess pid sid now =>
    simp only [step]
    rcases requireCoach_cases s sess (fun _ => createAssignmentH pid sid now s)
      with h | ⟨u, hu, hr, h⟩
    · left; rw [h]
    · rw [h]
      unfold createAssignmentH
      rcases hp : s.puzzles.find? (fun p => p.id == pid) with _ | pz
      · left; simp only [hp]
      · rcases hsu : s.users.find? (fun x => x.id == sid) with _ | stu
        · left; simp only [hp, hsu]
        · by_cases hrole : stu.role ≠ "student"
          · left; simp only [hp, hsu, if_pos hrole]
          · right; left
            refine ⟨sess, pid, sid, now, rfl, ?_⟩
            simp only [hp, hsu, if_neg hrole]
  | completeAssignment sess aid mv now =>
    simp only [step]
    rcases requireStudent_cases s sess
        (fun u => completeAssignmentH u aid mv now s) with ⟨r, h⟩ | ⟨u, hu, hr, h⟩
    · left; rw [h]
    · rw [h]
      unfold completeAssignmentH
      dsimp only
      rcases hf : s.assignments.find?
          (fun a => a.id == aid && a.studentId == u.id && a.completed == false)
        with _ | a0
      · left; simp only [hf]
      · right; right; left
        exact ⟨sess, aid, mv, now, u, rfl, hu, hr, by simp only [hf]⟩
  | attemptAssignment sess aid mv now =>
    simp only [step]
    rcases requireStudent_cases s sess
        (fun u => attemptAssignmentH u aid mv now s) with ⟨r, h⟩ | ⟨u, hu, hr, h⟩
    · left; rw [h]
    · rw [h]
      unfold attemptAssignmentH
      dsimp only
      rcases hf : s.assignments.find?
          (fun a => a.id == aid && a.studentId == u.id) with _ | a0
      · left; simp only [hf]
      · right; right; right; left
        exact ⟨sess, aid, mv, now, u, rfl, hu, hr, by simp only [hf]⟩
  | deleteAssignment sess sid aid =>
    simp only [step]
    rcases requireCoach_cases s sess (fun _ => deleteAssignmentH sid aid s) with
      h | ⟨u, hu, hr, h⟩
    · left; rw [h]
    · rw [h]
      unfold deleteAssignmentH
      dsimp only
      rcases hf : s.assignments.find?
          (fun a => a.id == aid && a.studentId == sid && a.completed == false)
        with _ | a0
      · left; simp only [hf]
      · right; right; right; right
        exact ⟨sess, sid, aid, rfl, by simp only [hf]⟩
  | createSchedule sess ti de sids st et tz prov url =>
    left
    simp only [step]
    rcases requireCoach_cases s sess
        (fun u => createScheduleH u ti de sids st et tz prov url s) with
      h | ⟨u, hu, hr, h⟩
    · rw [h]
    · rw [h]; exact (createScheduleH_frame u ti de sids st et tz prov url s).2.2
  | startSchedule sess sid now =>
    left
    simp only [step]
    rcases requireCoach_cases s sess (fun u => startScheduleH u sid now s) with
      h | ⟨u, hu, hr, h⟩
    · rw [h]
    · rw [h]; exact (startScheduleH_frame u sid now s).2.2.1
  | endSchedule sess sid now =>
    left
    simp only [step]
    rcases requireCoach_cases s sess (fun u => endScheduleH u sid now s) with
      h | ⟨u, hu, hr, h⟩
    · rw [h]
    · rw [h]; exact (endScheduleH_frame u sid now s).2.2.1
  | attendSchedule sess sid =>
    left
    simp only [step]
    rcases requireStudent_cases s sess (fun u => attendScheduleH u sid s) with
      ⟨r, h⟩ | ⟨u, hu, hr, h⟩
    · rw [h]
    · rw [h]; exact (attendScheduleH_frame u sid s).2.2.1
  | updateProfile sess salt nm em cur npw =>
    left
    simp only [step]
    rcases requireUser_cases s sess
        (fun u => updateProfileH scrypt u nm em cur npw salt s) with
      h | ⟨u, hu, h⟩
    · rw [h]
    · rw [h]; exact (updateProfileH_frame scrypt u nm em cur npw salt s).2.1
  | updatePreferences sess prov url =>
    left
    simp only [step]
    rcases hl : lookupUser s sess with _ | u
    · rfl
    · by_cases hr : u.role = "coach"
      · have hnr : ¬ (u.role ≠ "coach") := by simp [hr]
        simp only [if_neg hnr]
        exact (updatePreferencesH_frame u prov url s).2.1
      · simp only [if_pos hr]

/-! ### Claim theorems -/

/-- C1: Assignment completion is monotonic: no API operation changes the
completed flag of a stored assignment from true back to false; every
operation other than POST /api/assignments/:assignmentId/complete leaves the
flag of every surviving assignment unchanged; and when the complete
operation does change a flag, the assignment previously had
completed = false, belongs to the requesting student, the flag becomes true
and the attempt is appended.  The hypotheses say that stored object ids are
distinct and below the fresh-id counter, which Mongo guarantees. -/
theorem c1_completion_monotonic (scrypt : String → String → String) (op : Op)
    (s : DB) (hfresh : ∀ a ∈ s.assignments, a.id < s.nextId)
    (hnd : (s.assignments.map Assignment.id).Nodup) :
    (∀ a' ∈ (step scrypt op s).2.assignments, ∀ a ∈ s.assignments,
        a'.id = a.id → a.completed = true → a'.completed = true)
    ∧ ((∀ sess aid mv now, op ≠ Op.completeAssignment sess aid mv now) →
        ∀ a' ∈ (step scrypt op s).2.assignments, ∀ a ∈ s.assignments,
          a'.id = a.id → a'.completed = a.completed)
    ∧ (∀ sess aid mv now, op = Op.completeAssignment sess aid mv now →
        ∀ a' ∈ (step scrypt op s).2.assignments, ∀ a ∈ s.assignments,
          a'.id = a.id → a'.completed ≠ a.completed →
          a.completed = false ∧ a'.completed = true ∧ a.id = aid ∧
          ∃ u, lookupUser s sess = some u ∧ u.role = "student" ∧
            a.studentId = u.id ∧ a'.attempts = a.attempts ++ [⟨mv, now⟩]) := by
  have hinj : ∀ x ∈ s.assignments, ∀ y ∈ s.assignments, x.id = y.id → x = y :=
    fun x hx y hy hxy => List.inj_on_of_nodup_map hnd hx hy hxy
  rcases step_assignments scrypt op s with
    h | ⟨sess, pid, sid, now, hop, h⟩ | ⟨sess, aid, mv, now, u, hop, hu, hr, h⟩
      | ⟨sess, aid, mv, now, u, hop, hu, hr, h⟩ | ⟨sess, sid, aid, hop, h⟩
  · refine ⟨?_, ?_, ?_⟩
    · intro a' ha' a ha hid hc
      rw [h] at ha'
      rw [hinj a' ha' a ha hid]
      exact hc
    · intro _ a' ha' a ha hid
      rw [h] at ha'
      rw [hinj a' ha' a ha hid]
    · intro sess' aid' mv' now' hop' a' ha' a ha hid hne
      rw [h] at ha'
      exact absurd (congrArg Assignment.completed (hinj a' ha' a ha hid)) hne
  · subst hop
    have hnew : ∀ a' ∈ (step scrypt (Op.createAssignment sess pid sid now) s).2.assignments,
        ∀ a ∈ s.assignments, a'.id = a.id → a' ∈ s.assignments := by
      intro a' ha' a ha hid
      rw [h] at ha'
      rcases List.mem_append.mp ha' with h1 | h1
      · exact h1
      · exfalso
        have he : a' = ⟨s.nextId, pid, sid, false, now, []⟩ := by simpa using h1
        have hlt := hfresh a ha
        rw [← hid, he] at hlt
        exact lt_irrefl _ hlt
    refine ⟨?_, ?_, ?_⟩
    · intro a' ha' a ha hid hc
      rw [hinj a' (hnew a' ha' a ha hid) a ha hid]
      exact hc
    · intro _ a' ha' a ha hid
      rw [hinj a' (hnew a' ha' a ha hid) a ha hid]
    · intro sess' aid' mv' now' hop'
      cases hop'
  · subst hop
    refine ⟨?_, ?_, ?_⟩
    · intro a' ha' a ha hid hc
      rw [h] at ha'
      rcases mem_updateFirst ha' with h1 | ⟨x, hx, hpx, hfx⟩
      · rw [hinj a' h1 a ha hid]; exact hc
      · rw [hfx]
    · intro hne
      exact absurd rfl (hne sess aid mv now)
    · intro sess' aid' mv' now' hop' a' ha' a ha hid hne
      injection hop' with e1 e2 e3 e4
      subst e1; subst e2; subst e3; subst e4
      rw [h] at ha'
      rcases mem_updateFirst ha' with h1 | ⟨x, hx, hpx, hfx⟩
      · exact absurd (congrArg Assignment.completed (hinj a' h1 a ha hid)) hne
      · have hxid : x.id = a.id := by rw [← hid, hfx]
        have hxa : x = a := hinj x hx a ha hxid
        subst hxa
        simp only [Bool.and_eq_true, beq_iff_eq] at hpx
        refine ⟨hpx.2, by rw [hfx], hpx.1.1, u, hu, hr, hpx.1.2, by rw [hfx]⟩
  · subst hop
    refine ⟨?_, ?_, ?_⟩
    · intro a' ha' a ha hid hc
      rw [h] at ha'
      rcases mem_updateFirst ha' with h1 | ⟨x, hx, hpx, hfx⟩
      · rw [hinj a' h1 a ha hid]; exact hc
      · have hxid : x.id = a.id := by rw [← hid, hfx]
        have hxa : x = a := hinj x hx a ha hxid
        subst hxa
        rw [hfx]
        exact hc
    · intro _ a' ha' a ha hid
      rw [h] at ha'
      rcases mem_updateFirst ha' with h1 | ⟨x, hx, hpx, hfx⟩
      · rw [hinj a' h1 a ha hid]
      · have hxid : x.id = a.id := by rw [← hid, hfx]
        have hxa : x = a := hinj x hx a ha hxid
        subst hxa
        rw [hfx]
    · intro sess' aid' mv' now' hop'
      cases hop'
  · subst hop
    refine ⟨?_, ?_, ?_⟩
    · intro a' ha' a ha hid hc
      rw [h] at ha'
      rw [hinj a' (List.mem_of_mem_eraseP ha') a ha hid]
      exact hc
    · intro _ a' ha' a ha hid
      rw [h] at ha'
      rw [hinj a' (List.mem_of_mem_eraseP ha') a ha hid]
    · intro sess' aid' mv' now' hop'
      cases hop'

theorem createStudentH_users_ids (scrypt : String → String → String)
    (salt un nm : String) (s : DB) :
    ∀ uid ∈ s.users.map User.id,
      uid ∈ (createStudentH scrypt salt un nm s).2.users.map User.id := by
  intro uid hu
  unfold createStudentH
  split
  · exact hu
  · dsimp only
    rw [List.map_append]
    exact List.mem_append.mpr (Or.inl hu)

theorem step_users_mono (scrypt : String → String → String) (op : Op) (s : DB) :
    ∀ uid ∈ s.users.map User.id,
      uid ∈ (step scrypt op s).2.users.map User.id := by
  intro uid huid
  cases op with
  | createStudent sess salt un nm =>
    simp only [step]
    rcases requireCoach_cases s sess
        (fun _ => createStudentH scrypt salt un nm s) with h | ⟨u, hu, hr, h⟩
    · rw [h]; exact huid
    · rw [h]; exact createStudentH_users_ids scrypt salt un nm s uid huid
  | getStudents sess =>
    simp only [step]
    rcases requireCoach_cases s sess (fun _ => getStudentsH s) with
      h | ⟨u, hu, hr, h⟩
    · rw [h]; exact huid
    · rw [h]; exact huid
  | createPuzzle sess fen sol th now =>
    simp only [step]
    rcases requireCoach_cases s sess
        (fun u => createPuzzleH u fen sol th now s) with h | ⟨u, hu, hr, h⟩
    · rw [h]; exact huid
    · rw [h, (createPuzzleH_frame u fen sol th now s).1]; exact huid
  | updatePuzzle sess pid sol th =>
    simp only [step]
    rcases requireCoach_cases s sess (fun _ => updatePuzzleH pid sol th s) with
      h | ⟨u, hu, hr, h⟩
    · rw [h]; exact huid
    · rw [h, (updatePuzzleH_frame pid sol th s).1]; exact huid
  | deletePuzzle sess pid =>
    simp only [step]
    rcases requireCoach_cases s sess (fun _ => deletePuzzleH pid s) with
      h | ⟨u, hu, hr, h⟩
    · rw [h]; exact huid
    · rw [h, (deletePuzzleH_frame pid s).1]; exact huid
  | createAssignment sess pid sid now =>
    simp only [step]
    rcases requireCoach_cases s sess (fun _ => createAssignmentH pid sid now s)
      with h | ⟨u, hu, hr, h⟩
    · rw [h]; exact huid
    · rw [h, (createAssignmentH_frame pid sid now s).1]; exact huid
  | completeAssignment sess aid mv now =>
    simp only [step]
    rcases requireStudent_cases s sess
        (fun u => completeAssignmentH u aid mv now s) with ⟨r, h⟩ | ⟨u, hu, hr, h⟩
    · rw [h]; exact huid
    · rw [h, (completeAssignmentH_frame u aid mv now s).1]; exact huid
  | attemptAssignment sess aid mv now =>
    simp only [step]
    rcases requireStudent_cases s sess
        (fun u => attemptAssignmentH u aid mv now s) with ⟨r, h⟩ | ⟨u, hu, hr, h⟩
    · rw [h]; exact huid
    · rw [h, (attemptAssignmentH_frame u aid mv now s).1]; exact huid
  | deleteAssignment sess sid aid =>
    simp only [step]
    rcases requireCoach_cases s sess (fun _ => deleteAssignmentH sid aid s) with
      h | ⟨u, hu, hr, h⟩
    · rw [h]; exact huid
    · rw [h, (deleteAssignmentH_frame sid aid s).1]; exact huid
  | createSchedule sess ti de sids st et tz prov url =>
    simp only [step]
    rcases requireCoach_cases s sess
        (fun u => createScheduleH u ti de sids st et tz prov url s) with
      h | ⟨u, hu, hr, h⟩
    · rw [h]; exact huid
    · rw [h, (createScheduleH_frame u ti de sids st et tz prov url s).1]
      exact huid
  | startSchedule sess sid now =>
    simp only [step]
    rcases requireCoach_cases s sess (fun u => startScheduleH u sid now s) with
      h | ⟨u, hu, hr, h⟩
    · rw [h]; exact huid
    · rw [h, (startScheduleH_frame u sid now s).1]; exact huid
  | endSchedule sess sid now =>
    simp only [step]
    rcases requireCoach_cases s sess (fun u => endScheduleH u sid now s) with
      h | ⟨u, hu, hr, h⟩
    · rw [h]; exact huid
    · rw [h, (endScheduleH_frame u sid now s).1]; exact huid
  | attendSchedule sess sid =>
    simp only [step]
    rcases requireStudent_cases s sess (fun u => attendScheduleH u sid s) with
      ⟨r, h⟩ | ⟨u, hu, hr, h⟩
    · rw [h]; exact huid
    · rw [h, (attendScheduleH_frame u sid s).1]; exact huid
  | updateProfile sess salt nm em cur npw =>
    simp only [step]
    rcases requireUser_cases s sess
        (fun u => updateProfileH scrypt u nm em cur npw salt s) with
      h | ⟨u, hu, h⟩
    · rw [h]; exact huid
    · rw [h, updateProfileH_users_ids scrypt u nm em cur npw salt s]
      exact huid
  | updatePreferences sess prov url =>
    simp only [step]
    rcases hl : lookupUser s sess with _ | u
    · exact huid
    · by_cases hr : u.role = "coach"
      · have hnr : ¬ (u.role ≠ "coach") := by simp [hr]
        simp only [if_neg hnr]
        rw [updatePreferencesH_users_ids u prov url s]
        exact huid
      · simp only [if_pos hr]
        exact huid

/-- C8: user documents are never removed: no modelled API operation deletes
a user, so across every sequence of operations every stored user id is still
stored (user documents are only appended by student creation and mutated in
place by the profile and preferences updates, which keep their ids). -/
theorem c8_users_never_deleted (scrypt : String → String → String)
    (ops : List Op) (s : DB) :
    ∀ uid ∈ s.users.map User.id,
      uid ∈ (ops.foldl (fun st op => (step scrypt op st).2) s).users.map
        User.id := by
  induction ops generalizing s with
  | nil => intro uid h; exact h
  | cons op rest ih =>
    intro uid h
    simp only [List.foldl_cons]
    exact ih ((step scrypt op s).2) uid (step_users_mono scrypt op s uid h)

/-- Witness for C8: the default coach's id survives a concrete sequence of a
student creation, a profile update and a puzzle deletion. -/
theorem c8_users_never_deleted_witness :
    0 ∈ (([Op.createStudent (some 0) "SALT" "newkid" "New Kid",
           Op.updateProfile (some 0) "S2" "Renamed" none none none,
           Op.deletePuzzle (some 0) (some 3)].foldl
            (fun st op => (step (fun p sa => p ++ sa) op st).2)
            ⟨[⟨0, "coach", "pw", "Head Coach", none, "coach", none, none⟩],
             [], [], [], 4⟩).users.map User.id) :=
  c8_users_never_deleted (fun p sa => p ++ sa)
    [Op.createStudent (some 0) "SALT" "newkid" "New Kid",
     Op.updateProfile (some 0) "S2" "Renamed" none none none,
     Op.deletePuzzle (some 0) (some 3)]
    ⟨[⟨0, "coach", "pw", "Head Coach", none, "coach", none, none⟩],
     [], [], [], 4⟩
    0 (by decide)

/-- Witness for C1: at a concrete store whose only assignment is already
completed, a recorded attempt leaves its flag true. -/
theorem c1_completion_monotonic_witness :
    (⟨5, 2, 1, true, 0, [⟨["a2a3"], 9⟩]⟩ : Assignment).completed = true := by
  have h := c1_completion_monotonic (fun p sa => p ++ sa)
    (Op.attemptAssignment (some 1) 5 ["a2a3"] 9)
    ⟨[⟨0, "coach", "pw", "Head Coach", none, "coach", none, none⟩,
      ⟨1, "kid", "pw", "Kid", none, "student", none, none⟩],
     [], [⟨5, 2, 1, true, 0, []⟩], [], 6⟩
    (by decide) (by decide)
  exact h.1 ⟨5, 2, 1, true, 0, [⟨["a2a3"], 9⟩]⟩ (by decide)
    ⟨5, 2, 1, true, 0, []⟩ (by decide) rfl rfl

/-- The coach-only routes named by the spec: student creation and listing,
puzzle creation/update/delete, assignment creation/deletion, class-schedule
creation/start/end.  Each is registered with the `requireCoach` middleware. -/
def coachOnly : Op → Bool
  | .createStudent .. => true
  | .getStudents .. => true
  | .createPuzzle .. => true
  | .updatePuzzle .. => true
  | .deletePuzzle .. => true
  | .createAssignment .. => true
  | .deleteAssignment .. => true
  | .createSchedule .. => true
  | .startSchedule .. => true
  | .endSchedule .. => true
  | _ => false

/-- The handler body behind the `requireCoach` gate of each coach-only
route, as a function of the authenticated coach. -/
def coachHandler (scrypt : String → String → String) (u : User) (op : Op)
    (s : DB) : Resp × DB :=
  match op with
  | .createStudent _ salt un nm => createStudentH scrypt salt un nm s
  | .getStudents _ => getStudentsH s
  | .createPuzzle _ fen sol th now => createPuzzleH u fen sol th now s
  | .updatePuzzle _ pid sol th => updatePuzzleH pid sol th s
  | .deletePuzzle _ pid => deletePuzzleH pid s
  | .createAssignment _ pid sid now => createAssignmentH pid sid now s
  | .deleteAssignment _ sid aid => deleteAssignmentH sid aid s
  | .createSchedule _ ti de sids st et tz prov url =>
      createScheduleH u ti de sids st et tz prov url s
  | .startSchedule _ sid now => startScheduleH u sid now s
  | .endSchedule _ sid now => endScheduleH u sid now s
  | _ => (⟨200, none⟩, s)

/-- C3: for every coach-only route, a request whose session user is absent
or not a coach gets 403 "Coach access required" and the store is unchanged;
a request whose session user is a coach runs exactly the route's handler. -/
theorem c3_coach_gate (scrypt : String → String → String) (op : Op) (s : DB)
    (hco : coachOnly op = true) :
    ((∀ u, lookupUser s op.sess = some u → u.role ≠ "coach") →
        step scrypt op s = (⟨403, some "Coach access required"⟩, s))
    ∧ (∀ u, lookupUser s op.sess = some u → u.role = "coach" →
        step scrypt op s = coachHandler scrypt u op s) := by
  cases op with
  | createStudent sess salt un nm =>
    constructor
    · intro hno
      simp only [step, Op.sess] at *
      rcases requireCoach_cases s sess
          (fun _ => createStudentH scrypt salt un nm s) with h | ⟨u, hu, hr, h⟩
      · exact h
      · exact absurd hr (hno u hu)
    · intro u hu hr
      simp only [step, Op.sess] at *
      simp [requireCoach, hu, hr, coachHandler]
  | getStudents sess =>
    constructor
    · intro hno
      simp only [step, Op.sess] at *
      rcases requireCoach_cases s sess (fun _ => getStudentsH s) with
        h | ⟨u, hu, hr, h⟩
      · exact h
      · exact absurd hr (hno u hu)
    · intro u hu hr
      simp only [step, Op.sess] at *
      simp [requireCoach, hu, hr, coachHandler]
  | createPuzzle sess fen sol th now =>
    constructor
    · intro hno
      simp only [step, Op.sess] at *
      rcases requireCoach_cases s sess
          (fun u => createPuzzleH u fen sol th now s) with h | ⟨u, hu, hr, h⟩
      · exact h
      · exact absurd hr (hno u hu)
    · intro u hu hr
      simp only [step, Op.sess] at *
      simp [requireCoach, hu, hr, coachHandler]
  | updatePuzzle sess pid sol th =>
    constructor
    · intro hno
      simp only [step, Op.sess] at *
      rcases requireCoach_cases s sess (fun _ => updatePuzzleH pid sol th s)
        with h | ⟨u, hu, hr, h⟩
      · exact h
      · exact absurd hr (hno u hu)
    · intro u hu hr
      simp only [step, Op.sess] at *
      simp [requireCoach, hu, hr, coachHandler]
  | deletePuzzle sess pid =>
    constructor
    · intro hno
      simp only [step, Op.sess] at *
      rcases requireCoach_cases s sess (fun _ => deletePuzzleH pid s) with
        h | ⟨u, hu, hr, h⟩
      · exact h
      · exact absurd hr (hno u hu)
    · intro u hu hr
      simp only [step, Op.sess] at *
      simp [requireCoach, hu, hr, coachHandler]
  | createAssignment sess pid sid now =>
    constructor
    · intro hno
      simp only [step, Op.sess] at *
      rcases requireCoach_cases s sess (fun _ => createAssignmentH pid sid now s)
        with h | ⟨u, hu, hr, h⟩
      · exact h
      · exact absurd hr (hno u hu)
    · intro u hu hr
      simp only [step, Op.sess] at *
      simp [requireCoach, hu, hr, coachHandler]
  | completeAssignment sess aid mv now => simp [coachOnly] at hco
  | attemptAssignment sess aid mv now => simp [coachOnly] at hco
  | deleteAssignment sess sid aid =>
    constructor
    · intro hno
      simp only [step, Op.sess] at *
      rcases requireCoach_cases s sess (fun _ => deleteAssignmentH sid aid s)
        with h | ⟨u, hu, hr, h⟩
      · exact h
      · exact absurd hr (hno u hu)
    · intro u hu hr
      simp only [step, Op.sess] at *
      simp [requireCoach, hu, hr, coachHandler]
  | createSchedule sess ti de sids st et tz prov url =>
    constructor
    · intro hno
      simp only [step, Op.sess] at *
      rcases requireCoach_cases s sess
          (fun u => createScheduleH u ti de sids st et tz prov url s) with
        h | ⟨u, hu, hr, h⟩
      · exact h
      · exact absurd hr (hno u hu)
    · intro u hu hr
      simp only [step, Op.sess] at *
      simp [requireCoach, hu, hr, coachHandler]
  | startSchedule sess sid now =>
    constructor
    · intro hno
      simp only [step, Op.sess] at *
      rcases requireCoach_cases s sess (fun u => startScheduleH u sid now s)
        with h | ⟨u, hu, hr, h⟩
      · exact h
      · exact absurd hr (hno u hu)
    · intro u hu hr
      simp only [step, Op.sess] at *
      simp [requireCoach, hu, hr, coachHandler]
  | endSchedule sess sid now =>
    constructor
    · intro hno
      simp only [step, Op.sess] at *
      rcases requireCoach_cases s sess (fun u => endScheduleH u sid now s)
        with h | ⟨u, hu, hr, h⟩
      · exact h
      · exact absurd hr (hno u hu)
    · intro u hu hr
      simp only [step, Op.sess] at *
      simp [requireCoach, hu, hr, coachHandler]
  | attendSchedule sess sid => simp [coachOnly] at hco
  | updateProfile sess salt nm em cur npw => simp [coachOnly] at hco
  | updatePreferences sess prov url => simp [coachOnly] at hco

/-- Witness for C3: on a store with no users, an anonymous student-listing
request is refused with 403 "Coach access required" and no state change. -/
theorem c3_coach_gate_witness :
    step (fun p sa => p ++ sa) (Op.getStudents none) ⟨[], [], [], [], 0⟩ =
      (⟨403, some "Coach access required"⟩, ⟨[], [], [], [], 0⟩) :=
  (c3_coach_gate (fun p sa => p ++ sa) (Op.getStudents none)
      ⟨[], [], [], [], 0⟩ rfl).1
    (fun u h => Option.noConfusion h)

/-- C2: DELETE /api/students/:studentId/puzzles/:puzzleId removes an
assignment exactly when an assignment with that id exists for that student
with completed = false; when none matches (absent or already completed) it
answers 404 "Assignment not found or already completed" and the whole store
is unchanged; when one matches it answers 200, that assignment is removed,
and every other document survives. -/
theorem c2_delete_assignment (scrypt : String → String → String) (s : DB)
    (sess : Option Nat) (u : User) (sid aid : Nat)
    (hu : lookupUser s sess = some u) (hrole : u.role = "coach")
    (hnd : (s.assignments.map Assignment.id).Nodup) :
    ((∀ a ∈ s.assignments,
        ¬(a.id = aid ∧ a.studentId = sid ∧ a.completed = false)) →
      step scrypt (Op.deleteAssignment sess sid aid) s =
        (⟨404, some "Assignment not found or already completed"⟩, s))
    ∧ (∀ a ∈ s.assignments, a.id = aid → a.studentId = sid →
        a.completed = false →
        (step scrypt (Op.deleteAssignment sess sid aid) s).1 =
          ⟨200, some "Assignment deleted successfully"⟩ ∧
        a ∉ (step scrypt (Op.deleteAssignment sess sid aid) s).2.assignments ∧
        (∀ b ∈ s.assignments, b ≠ a →
          b ∈ (step scrypt (Op.deleteAssignment sess sid aid) s).2.assignments) ∧
        (step scrypt (Op.deleteAssignment sess sid aid) s).2.users = s.users ∧
        (step scrypt (Op.deleteAssignment sess sid aid) s).2.puzzles =
          s.puzzles ∧
        (step scrypt (Op.deleteAssignment sess sid aid) s).2.schedules =
          s.schedules) := by
  have hgate : step scrypt (Op.deleteAssignment sess sid aid) s =
      deleteAssignmentH sid aid s := by
    simp only [step]
    simp [requireCoach, hu, hrole]
  constructor
  · intro hno
    have hfind : s.assignments.find?
        (fun a => a.id == aid && a.studentId == sid && a.completed == false) =
        none := by
      rw [List.find?_eq_none]
      intro x hx hpx
      simp only [Bool.and_eq_true, beq_iff_eq] at hpx
      exact hno x hx ⟨hpx.1.1, hpx.1.2, hpx.2⟩
    rw [hgate]
    unfold deleteAssignmentH
    simp only [hfind]
  · intro a ha h1 h2 h3
    have hpa : (fun a => a.id == aid && a.studentId == sid &&
        a.completed == false) a = true := by
      simp [h1, h2, h3]
    have hfind : s.assignments.find?
        (fun a => a.id == aid && a.studentId == sid && a.completed == false) =
        some a := by
      rw [find?_eq_of_key Assignment.id hnd ha _ ?_, if_pos hpa]
      intro x hpx
      simp only [Bool.and_eq_true, beq_iff_eq] at hpx
      rw [hpx.1.1, h1]
    rw [hgate]
    unfold deleteAssignmentH
    simp only [hfind]
    refine ⟨trivial, ?_, ?_, trivial, trivial, trivial⟩
    · exact not_mem_eraseP_self (List.Nodup.of_map Assignment.id hnd) hfind
    · intro b hb hne
      exact mem_eraseP_of_ne hfind hb hne

/-- Witness for C2: a concrete incomplete assignment is deleted with a 200
response. -/
theorem c2_delete_assignment_witness :
    (step (fun p sa => p ++ sa) (Op.deleteAssignment (some 0) 1 5)
      ⟨[⟨0, "coach", "pw", "Head Coach", none, "coach", none, none⟩,
        ⟨1, "kid", "pw", "Kid", none, "student", none, none⟩],
       [], [⟨5, 2, 1, false, 0, []⟩], [], 6⟩).1 =
      ⟨200, some "Assignment deleted successfully"⟩ :=
  ((c2_delete_assignment (fun p sa => p ++ sa)
      ⟨[⟨0, "coach", "pw", "Head Coach", none, "coach", none, none⟩,
        ⟨1, "kid", "pw", "Kid", none, "student", none, none⟩],
       [], [⟨5, 2, 1, false, 0, []⟩], [], 6⟩
      (some 0) ⟨0, "coach", "pw", "Head Coach", none, "coach", none, none⟩
      1 5 (by decide) rfl (by decide)).2
    ⟨5, 2, 1, false, 0, []⟩ (by decide) rfl rfl rfl).1

/-- C6 counterexample: on a completed schedule whose start time is still
more than ten minutes away, the start operation answers 400 with message
"Too early to start class", not "Class is already completed" - the
too-early check runs before the completed check. -/
theorem c6_counterexample :
    step (fun p sa => p ++ sa) (Op.startSchedule (some 0) 9 0)
        ⟨[⟨0, "coach", "pw", "Head Coach", none, "coach", none, none⟩], [], [],
         [⟨9, "T", "d", 0, [1], 100, 200, "UTC", "u", "zoom", "completed",
           none, none, []⟩], 10⟩ =
      (⟨400, some "Too early to start class"⟩,
       ⟨[⟨0, "coach", "pw", "Head Coach", none, "coach", none, none⟩], [], [],
        [⟨9, "T", "d", 0, [1], 100, 200, "UTC", "u", "zoom", "completed",
          none, none, []⟩], 10⟩) ∧
    (⟨400, some "Too early to start class"⟩ : Resp) ≠
      ⟨400, some "Class is already completed"⟩ := by
  constructor
  · decide
  · decide

/-- C6 (amended): a schedule with status "completed" never changes again:
the owning coach's start request answers 400 - with "Class is already
completed", or with "Too early to start class" when the request is more
than ten minutes before the scheduled start - the end request answers 404
"Schedule not found or cannot be ended", an enrolled student's attend
request answers 404 "Schedule not found or attendance already marked", and
in every case the whole store is unchanged. -/
theorem c6_completed_schedule_frozen (scrypt : String → String → String)
    (s : DB) (sessC sessS : Option Nat) (u v : User) (sid : Nat)
    (sch : ClassSchedule) (now now2 : Int)
    (hu : lookupUser s sessC = some u) (hrole : u.role = "coach")
    (hv : lookupUser s sessS = some v) (hvrole : v.role = "student")
    (hnd : (s.schedules.map ClassSchedule.id).Nodup)
    (hmem : sch ∈ s.schedules) (hid : sch.id = sid)
    (hown : sch.coachId = u.id) (hst : sch.status = "completed") :
    step scrypt (Op.startSchedule sessC sid now) s =
      (if now < sch.startTime - 10 then
         (⟨400, some "Too early to start class"⟩, s)
       else (⟨400, some "Class is already completed"⟩, s))
    ∧ step scrypt (Op.endSchedule sessC sid now2) s =
        (⟨404, some "Schedule not found or cannot be ended"⟩, s)
    ∧ step scrypt (Op.attendSchedule sessS sid) s =
        (⟨404, some "Schedule not found or attendance already marked"⟩, s) := by
  refine ⟨?_, ?_, ?_⟩
  · have hgate : step scrypt (Op.startSchedule sessC sid now) s =
        startScheduleH u sid now s := by
      simp only [step]
      simp [requireCoach, hu, hrole]
    have hpa : (fun c : ClassSchedule => c.id == sid && c.coachId == u.id) sch
        = true := by simp [hid, hown]
    have hfind : s.schedules.find?
        (fun c => c.id == sid && c.coachId == u.id) = some sch := by
      rw [find?_eq_of_key ClassSchedule.id hnd hmem _ ?_, if_pos hpa]
      intro x hpx
      simp only [Bool.and_eq_true, beq_iff_eq] at hpx
      rw [hpx.1, hid]
    rw [hgate]
    unfold startScheduleH
    simp only [hfind]
    by_cases ht : now < sch.startTime - 10
    · simp [ht]
    · simp [ht, hst]
  · have hgate : step scrypt (Op.endSchedule sessC sid now2) s =
        endScheduleH u sid now2 s := by
      simp only [step]
      simp [requireCoach, hu, hrole]
    have hfind : s.schedules.find?
        (fun c => c.id == sid && c.coachId == u.id &&
                  c.status == "in_progress") = none := by
      rw [find?_eq_of_key ClassSchedule.id hnd hmem _ ?_, if_neg ?_]
      · simp [hst]
      · intro x hpx
        simp only [Bool.and_eq_true, beq_iff_eq] at hpx
        rw [hpx.1.1, hid]
    rw [hgate]
    unfold endScheduleH
    simp only [hfind]
  · have hgate : step scrypt (Op.attendSchedule sessS sid) s =
        attendScheduleH v sid s := by
      simp only [step]
      simp [requireStudent, hv, hvrole]
    have hfind : s.schedules.find?
        (fun c => c.id == sid && c.status == "in_progress" &&
                  c.studentIds.contains v.id &&
                  !(c.attendees.contains v.id)) = none := by
      rw [find?_eq_of_key ClassSchedule.id hnd hmem _ ?_, if_neg ?_]
      · simp [hst]
      · intro x hpx
        simp only [Bool.and_eq_true, beq_iff_eq] at hpx
        rw [hpx.1.1.1, hid]
    rw [hgate]
    unfold attendScheduleH
    simp only [hfind]

/-- Witness for C6 (amended) at a concrete completed schedule. -/
theorem c6_completed_schedule_frozen_witness :
    step (fun p sa => p ++ sa) (Op.endSchedule (some 0) 9 300)
        ⟨[⟨0, "coach", "pw", "Head Coach", none, "coach", none, none⟩,
          ⟨1, "kid", "pw", "Kid", none, "student", none, none⟩], [], [],
         [⟨9, "T", "d", 0, [1], 100, 200, "UTC", "u", "zoom", "completed",
           none, none, []⟩], 10⟩ =
      (⟨404, some "Schedule not found or cannot be ended"⟩,
       ⟨[⟨0, "coach", "pw", "Head Coach", none, "coach", none, none⟩,
         ⟨1, "kid", "pw", "Kid", none, "student", none, none⟩], [], [],
        [⟨9, "T", "d", 0, [1], 100, 200, "UTC", "u", "zoom", "completed",
          none, none, []⟩], 10⟩) :=
  (c6_completed_schedule_frozen (fun p sa => p ++ sa)
      ⟨[⟨0, "coach", "pw", "Head Coach", none, "coach", none, none⟩,
        ⟨1, "kid", "pw", "Kid", none, "student", none, none⟩], [], [],
       [⟨9, "T", "d", 0, [1], 100, 200, "UTC", "u", "zoom", "completed",
         none, none, []⟩], 10⟩
      (some 0) (some 1)
      ⟨0, "coach", "pw", "Head Coach", none, "coach", none, none⟩
      ⟨1, "kid", "pw", "Kid", none, "student", none, none⟩
      9
      ⟨9, "T", "d", 0, [1], 100, 200, "UTC", "u", "zoom", "completed",
       none, none, []⟩
      120 300
      (by decide) rfl (by decide) rfl (by decide) (by decide) rfl rfl
      rfl).2.1

/-- C7: POST /api/puzzles/update with all three fields present sets only the
solution and themes of the named puzzle - its fen, createdBy and createdAt
survive, every other puzzle and every other collection is untouched - a
missing field yields 400 "Missing required fields" with the store unchanged,
and an unknown puzzle id yields 404 with the store unchanged. -/
theorem c7_puzzle_update_frame (scrypt : String → String → String) (s : DB)
    (sess : Option Nat) (u : User) (pid : Nat) (sol themes : List String)
    (hu : lookupUser s sess = some u) (hrole : u.role = "coach")
    (hnd : (s.puzzles.map Puzzle.id).Nodup) :
    (∀ (opid : Option Nat) (osol othemes : Option (List String)),
        opid = none ∨ osol = none ∨ othemes = none →
        step scrypt (Op.updatePuzzle sess opid osol othemes) s =
          (⟨400, some "Missing required fields"⟩, s))
    ∧ ((∀ p ∈ s.puzzles, p.id ≠ pid) →
        step scrypt (Op.updatePuzzle sess (some pid) (some sol) (some themes))
          s = (⟨404, some "Puzzle not found"⟩, s))
    ∧ (∀ p ∈ s.puzzles, p.id = pid →
        (step scrypt (Op.updatePuzzle sess (some pid) (some sol) (some themes))
            s).1 = ⟨200, none⟩ ∧
        (step scrypt (Op.updatePuzzle sess (some pid) (some sol) (some themes))
            s).2.puzzles =
          s.puzzles.map (fun q => if q.id == pid then
            { q with solution := sol, themes := themes } else q) ∧
        { p with solution := sol, themes := themes } ∈
          (step scrypt (Op.updatePuzzle sess (some pid) (some sol)
            (some themes)) s).2.puzzles ∧
        (∀ q ∈ s.puzzles, q.id ≠ pid → q ∈
          (step scrypt (Op.updatePuzzle sess (some pid) (some sol)
            (some themes)) s).2.puzzles) ∧
        (step scrypt (Op.updatePuzzle sess (some pid) (some sol) (some themes))
            s).2.users = s.users ∧
        (step scrypt (Op.updatePuzzle sess (some pid) (some sol) (some themes))
            s).2.assignments = s.assignments ∧
        (step scrypt (Op.updatePuzzle sess (some pid) (some sol) (some themes))
            s).2.schedules = s.schedules ∧
        (step scrypt (Op.updatePuzzle sess (some pid) (some sol) (some themes))
            s).2.nextId = s.nextId) := by
  refine ⟨?_, ?_, ?_⟩
  · intro opid osol othemes hmiss
    have hgate : step scrypt (Op.updatePuzzle sess opid osol othemes) s =
        updatePuzzleH opid osol othemes s := by
      simp only [step]
      simp [requireCoach, hu, hrole]
    rw [hgate]
    cases opid with
    | none => rfl
    | some pid0 =>
      cases osol with
      | none => rfl
      | some sol0 =>
        cases othemes with
        | none => rfl
        | some th0 =>
          rcases hmiss with h | h | h <;> exact absurd h (by simp)
  · intro hnone
    have hgate : step scrypt
        (Op.updatePuzzle sess (some pid) (some sol) (some themes)) s =
        updatePuzzleH (some pid) (some sol) (some themes) s := by
      simp only [step]
      simp [requireCoach, hu, hrole]
    have hfind : s.puzzles.find? (fun p => p.id == pid) = none := by
      rw [List.find?_eq_none]
      intro x hx hpx
      exact hnone x hx (by simpa using hpx)
    rw [hgate]
    unfold updatePuzzleH
    simp only [hfind]
  · intro p hp hpid
    have hgate : step scrypt
        (Op.updatePuzzle sess (some pid) (some sol) (some themes)) s =
        updatePuzzleH (some pid) (some sol) (some themes) s := by
      simp only [step]
      simp [requireCoach, hu, hrole]
    have hpa : (fun q : Puzzle => q.id == pid) p = true := by simp [hpid]
    have hfind : s.puzzles.find? (fun q => q.id == pid) = some p := by
      rw [find?_eq_of_key Puzzle.id hnd hp _ ?_, if_pos hpa]
      intro x hpx
      rw [show x.id = pid from by simpa using hpx, hpid]
    have hmap : updateFirst (fun q : Puzzle => q.id == pid)
        (fun q => { q with solution := sol, themes := themes }) s.puzzles =
        s.puzzles.map (fun q => if q.id == pid then
          { q with solution := sol, themes := themes } else q) :=
      updateFirst_eq_map Puzzle.id pid _ s.puzzles hnd
    rw [hgate]
    unfold updatePuzzleH
    simp only [hfind]
    refine ⟨trivial, by rw [hmap], ?_, ?_, trivial, trivial, trivial, trivial⟩
    · rw [hmap]
      have he : (fun q : Puzzle => if q.id == pid then
          { q with solution := sol, themes := themes } else q) p =
          { p with solution := sol, themes := themes } := by
        simp [hpid]
      exact he ▸ List.mem_map_of_mem _ hp
    · intro q hq hqne
      rw [hmap]
      have he : (fun q : Puzzle => if q.id == pid then
          { q with solution := sol, themes := themes } else q) q = q := by
        simp [hqne]
      exact he ▸ List.mem_map_of_mem _ hq

/-- Witness for C7: the missing-field case and the successful update at a
concrete store. -/
theorem c7_puzzle_update_frame_witness :
    step (fun p sa => p ++ sa)
        (Op.updatePuzzle (some 0) (some 3) none (some ["fork"]))
        ⟨[⟨0, "coach", "pw", "Head Coach", none, "coach", none, none⟩],
         [⟨3, "8/8/8/8/8/8/8/K6k w - - 0 1", ["a1a2"], ["endgame"], 0, 0⟩],
         [], [], 4⟩ =
      (⟨400, some "Missing required fields"⟩,
       ⟨[⟨0, "coach", "pw", "Head Coach", none, "coach", none, none⟩],
        [⟨3, "8/8/8/8/8/8/8/K6k w - - 0 1", ["a1a2"], ["endgame"], 0, 0⟩],
        [], [], 4⟩) :=
  (c7_puzzle_update_frame (fun p sa => p ++ sa)
      ⟨[⟨0, "coach", "pw", "Head Coach", none, "coach", none, none⟩],
       [⟨3, "8/8/8/8/8/8/8/K6k w - - 0 1", ["a1a2"], ["endgame"], 0, 0⟩],
       [], [], 4⟩
      (some 0) ⟨0, "coach", "pw", "Head Coach", none, "coach", none, none⟩
      3 ["a1b1"] ["fork"] (by decide) rfl (by decide)).1
    (some 3) none (some ["fork"]) (Or.inr (Or.inl rfl))

/-- C10: every student account made through the coach's create-student
operation is stored with role "student" and with password equal to the
scrypt hash of the fixed default string "student123" - the request supplies
only the username and the name, and neither influences the password. -/
theorem c10_create_student_defaults (scrypt : String → String → String)
    (salt : String) (s : DB) (sess : Option Nat) (u : User) (un nm : String)
    (hu : lookupUser s sess = some u) (hrole : u.role = "coach")
    (hlen : 3 ≤ un.length) :
    step scrypt (Op.createStudent sess salt un nm) s =
      (⟨201, none⟩,
       { s with
         users := s.users ++
           [⟨s.nextId, un, hashPasswordM scrypt salt "student123", nm, none,
             "student", none, none⟩]
         nextId := s.nextId + 1 }) := by
  have hgate : step scrypt (Op.createStudent sess salt un nm) s =
      createStudentH scrypt salt un nm s := by
    simp only [step]
    simp [requireCoach, hu, hrole]
  rw [hgate]
  unfold createStudentH
  rw [if_neg (by omega)]

/-- Witness for C10: a concrete student creation stores the default
password hash and role "student". -/
theorem c10_create_student_defaults_witness :
    step (fun p sa => p ++ sa) (Op.createStudent (some 0) "SALT" "newkid"
        "New Kid")
        ⟨[⟨0, "coach", "pw", "Head Coach", none, "coach", none, none⟩],
         [], [], [], 4⟩ =
      (⟨201, none⟩,
       ⟨[⟨0, "coach", "pw", "Head Coach", none, "coach", none, none⟩,
         ⟨4, "newkid", "student123SALT.SALT", "New Kid", none, "student",
          none, none⟩], [], [], [], 5⟩) :=
  c10_create_student_defaults (fun p sa => p ++ sa) "SALT"
    ⟨[⟨0, "coach", "pw", "Head Coach", none, "coach", none, none⟩],
     [], [], [], 4⟩
    (some 0) ⟨0, "coach", "pw", "Head Coach", none, "coach", none, none⟩
    "newkid" "New Kid" (by decide) rfl (by decide)

/-- C4: the puzzle creator accepts the entered solution string exactly when,
after trimming and splitting on whitespace, every token satisfies the
four-or-five character UCI criterion (files a-h, ranks 1-8, optional
promotion character among q, r, b, n, k); on acceptance the token list
becomes the solution in order while the input, move index and autoplay are
reset; on rejection the component state - in particular the stored
solution - is unchanged. -/
theorem c4_solution_submit (st : CreatorState) :
    (∀ m, isValidUciMove m = claimUciToken m)
    ∧ ((jsSplitWs (jsTrim st.solutionInput)).all claimUciToken = true →
        handleSolutionSubmit st =
          { st with solution := jsSplitWs (jsTrim st.solutionInput)
                    solutionInput := "", currentMoveIndex := -1
                    isPlaying := false })
    ∧ ((jsSplitWs (jsTrim st.solutionInput)).all claimUciToken = false →
        handleSolutionSubmit st = st) := by
  have hpt : ∀ m, isValidUciMove m = claimUciToken m := by
    intro m
    unfold isValidUciMove claimUciToken uciRegexTest
    have hlen : m.length = m.toList.length := rfl
    rw [hlen]
    cases hl : m.toList with
    | nil => simp
    | cons a t1 =>
      cases t1 with
      | nil => simp
      | cons b t2 =>
        cases t2 with
        | nil => simp
        | cons c t3 =>
          cases t3 with
          | nil => simp
          | cons d t4 =>
            cases t4 with
            | nil => simp
            | cons e t5 =>
              cases t5 with
              | nil => simp
              | cons f t6 =>
                simp only [List.length_cons]
                have h4 : (t6.length + 1 + 1 + 1 + 1 + 1 + 1 == 4) = false := by
                  simp
                have h5 : (t6.length + 1 + 1 + 1 + 1 + 1 + 1 == 5) = false := by
                  simp
                rw [h4, h5]
                rfl
  have hfun : isValidUciMove = claimUciToken := funext hpt
  refine ⟨hpt, ?_, ?_⟩
  · intro hall
    unfold handleSolutionSubmit
    rw [hfun]
    dsimp only
    simp [hall]
  · intro hall
    unfold handleSolutionSubmit
    rw [hfun]
    dsimp only
    simp [hall]

/-- Witness for C4: a concrete valid entry is stored as the solution, token
by token. -/
theorem c4_solution_submit_witness :
    handleSolutionSubmit ⟨["old"], " e2e4   e7e8q ", 3, true⟩ =
      ⟨["e2e4", "e7e8q"], "", -1, false⟩ :=
  (c4_solution_submit ⟨["old"], " e2e4   e7e8q ", 3, true⟩).2.1 (by decide)

/-- C9: with an expected solution move present, the student solver's
isCorrectMove accepts a played UCI string exactly when it equals the
expected move, or the two agree on their first four characters and at least
one of them has length five - so a promotion to a different piece than the
solution's is still accepted. -/
theorem c9_is_correct_move (sol : List String) (idx : Int) (m e : String)
    (he : jsIndex sol (idx + 1) = some e) :
    isCorrectMove sol idx m = true ↔
      (m = e ∨ (m.take 4 = e.take 4 ∧ (m.length = 5 ∨ e.length = 5))) := by
  unfold isCorrectMove
  rw [he]
  by_cases hme : m = e
  · simp [hme]
  · by_cases hb : m.take 4 = e.take 4
    · simp [hme, hb]
    · simp [hme, hb]

/-- Witness for C9: the solution expects the promotion e7e8q, and the
played promotion e7e8r (a rook instead of a queen) is accepted. -/
theorem c9_is_correct_move_witness :
    isCorrectMove ["e7e8q"] (-1) "e7e8r" = true :=
  (c9_is_correct_move ["e7e8q"] (-1) "e7e8r" "e7e8q" (by decide)).mpr
    (Or.inr ⟨by decide, Or.inl (by decide)⟩)

/-- C5: the classroom channel is a last-write-wins broadcast of one board
position: when connected and the local move is legal, handleMove emits
exactly one board_update message whose payload is exactly the new
position's FEN and stores that position locally; and on receiving a
board_update the client replaces its game with a fresh game loaded from the
received FEN, with a result independent of whatever position it held
before - no merging or reconciliation. -/
theorem c5_board_broadcast {G : Type} (api : ChessApi G) (st : BoardState G)
    (src tgt : String) (g : G) :
    (st.isConnected = true → api.move st.game src tgt "q" = some g →
       (handleMove api st src tgt).2.2 =
         [api.fen (api.loadFresh (api.fen g))] ∧
       (handleMove api st src tgt).2.1.game = api.loadFresh (api.fen g) ∧
       (handleMove api st src tgt).1 = true)
    ∧ (st.isConnected = false →
        handleMove api st src tgt = (false, st, []))
    ∧ (∀ fenStr, (onBoardUpdate api st fenStr).game = api.loadFresh fenStr)
    ∧ (∀ (st2 : BoardState G) fenStr,
        (onBoardUpdate api st fenStr).game =
          (onBoardUpdate api st2 fenStr).game) := by
  refine ⟨?_, ?_, ?_, ?_⟩
  · intro hc hm
    unfold handleMove
    rw [hc, hm]
    exact ⟨rfl, rfl, rfl⟩
  · intro hc
    unfold handleMove
    rw [hc]
    rfl
  · intro fenStr
    rfl
  · intro st2 fenStr
    rfl

/-- Witness for C5 with a concrete engine on string states: the emitted
payload is exactly the new position's FEN. -/
theorem c5_board_broadcast_witness :
    (handleMove
        (⟨fun g a b p => some (g ++ a ++ b ++ p), fun g => g, fun f => f,
          fun _ => []⟩ : ChessApi String)
        ⟨"pos0", [], -1, true⟩ "e2" "e4").2.2 = ["pos0e2e4q"] :=
  ((c5_board_broadcast
      (⟨fun g a b p => some (g ++ a ++ b ++ p), fun g => g, fun f => f,
        fun _ => []⟩ : ChessApi String)
      ⟨"pos0", [], -1, true⟩ "e2" "e4" "pos0e2e4q").1 rfl (by decide)).1

end Academy
